import Mathlib

/-!
Shallow embedding of the reconciliation engine in
src/scripts_staging/Backend/Sync TRMM with GIT.py, and proofs of the
frozen claims about it.  JSON payloads are modelled by an explicit value
type, the filesystem by lists of relative paths (lists of components),
the remote store by a function from ids to HTTP outcomes, and the
version control executor not at all (it is an external collaborator).
External collaborators that the script only calls through a narrow
functional interface (sanitize_filename, sha256 hex digests) are
parameters of the corresponding definitions.
-/

/-- JSON values as produced by requests .json() and consumed by json.dumps. -/
inductive JVal where
  | null : JVal
  | b : Bool → JVal
  | i : Int → JVal
  | s : String → JVal
  | arr : List JVal → JVal
  | obj : List (String × JVal) → JVal

/-- A Python dict holding JSON data: an association list with distinct keys,
in insertion order, as produced by parsing a JSON object. -/
abbrev Dict := List (String × JVal)

/-- Python exceptions that the embedded code paths can raise. -/
inductive PyError where
  | typeError : PyError
  | valueError : PyError
  | attributeError : PyError
  | indexError : PyError
  | requestException : PyError
  | brokenPipeError : PyError

def idKey : String := "id"
def nameKey : String := "name"
def categoryKey : String := "category"
def shellKey : String := "shell"
def codeKey : String := "code"
def scriptTypeKey : String := "script_type"
def scriptBodyKey : String := "script_body"
def userdefinedStr : String := "userdefined"
def scriptsrawSlash : String := "scriptsraw/"
def defaultScriptName : String := "Unnamed Script"

/-- Python d.get(k): the value of the first (and only) binding of k. -/
def dget (d : Dict) (k : String) : Option JVal :=
  (d.find? (fun p => p.1 == k)).map (fun p => p.2)

/-- Python d.pop(k)/del d[k]: drop the binding of k, keep the rest in order. -/
def dremove (d : Dict) (k : String) : Dict :=
  d.filter (fun p => !(p.1 == k))

/-- Python d[k] = v: overwrite in place when k is present, append otherwise. -/
def dset (d : Dict) (k : String) (v : JVal) : Dict :=
  if (dget d k).isSome then d.map (fun p => if p.1 == k then (k, v) else p)
  else d ++ [(k, v)]

/-- Python dict unpacking followed by overriding entries of b, one by one,
in the order of b; used for the merge written as two unpackings in a literal. -/
def dictMerge (a b : Dict) : Dict :=
  b.foldl (fun d p => dset d p.1 p.2) a

/-- Python truthiness of a JSON value (used by the guards written as
if not data and if s.get(...)). -/
def truthy : JVal → Bool
  | .null => false
  | .b x => x
  | .i n => !(n == 0)
  | .s x => !x.isEmpty
  | .arr xs => !xs.isEmpty
  | .obj fs => !fs.isEmpty

/-- Python v == t for a string literal t: true only for an equal string. -/
def jvalIsStr (v : JVal) (t : String) : Bool :=
  match v with
  | .s x => x == t
  | _ => false

def isObjB : JVal → Bool
  | .obj _ => true
  | _ => false

def isStrB : JVal → Bool
  | .s _ => true
  | _ => false

def digitChar (n : Nat) : Char := Char.ofNat (48 + n)

/-- Decimal digits of n, most significant first, via a structural fuel. -/
def natToStrGo : Nat → Nat → List Char
  | 0, _ => []
  | fuel + 1, n => if n == 0 then [] else natToStrGo fuel (n / 10) ++ [digitChar (n % 10)]

/-- Python str(n) for a natural number. -/
def natToStr (n : Nat) : String :=
  if n == 0 then "0" else String.mk (natToStrGo n n)

/-- Python str(i) for an integer. -/
def intToStr (i : Int) : String :=
  if i < 0 then "-" ++ natToStr i.natAbs else natToStr i.natAbs

/-- Python str() as used inside the f-strings of the script.  The ids
interpolated there are integers or absent (None); the repr of containers
is not modelled and never reached by the claims. -/
def pyStr : JVal → String
  | .null => "None"
  | .b true => "True"
  | .b false => "False"
  | .i n => intToStr n
  | .s x => x
  | .arr _ => "<container-repr>"
  | .obj _ => "<container-repr>"

/-- Python s.lower() for the ASCII names involved. -/
def strLower (s : String) : String := String.mk (s.toList.map Char.toLower)

def isSpaceChar (c : Char) : Bool :=
  c == ' ' || c == '\t' || c == '\n' || c == '\r'

/-- Python s.strip() restricted to the common whitespace characters. -/
def strStrip (s : String) : String :=
  String.mk (((s.toList.dropWhile isSpaceChar).reverse.dropWhile isSpaceChar).reverse)

/-- Python s.startswith(pre). -/
def strStarts (s pre : String) : Bool := pre.toList.isPrefixOf s.toList

/-- Splitting on a single separator character, Python str.split(sep)
semantics: consecutive separators yield empty fields. -/
def splitCharGo (sep : Char) : List Char → List Char → List String
  | [], acc => [String.mk acc.reverse]
  | c :: rest, acc =>
      if c == sep then String.mk acc.reverse :: splitCharGo sep rest []
      else splitCharGo sep rest (c :: acc)

def splitTab (s : String) : List String := splitCharGo '\t' s.toList []

/-- Python str.split() with no argument: split on runs of whitespace,
dropping empty fields. -/
def splitWs (s : String) : List String :=
  (splitCharGo ' ' (s.toList.map (fun c => if isSpaceChar c then ' ' else c)) []).filter
    (fun t => !t.isEmpty)

/-- Python sep.join(parts). -/
def joinSep (sep : String) : List String → String
  | [] => ""
  | [x] => x
  | x :: y :: rest => x ++ sep ++ joinSep sep (y :: rest)

/-- A value of the string content of a JSON value, raising like Python
does when a string method is invoked on a non-string. -/
def asPlainStr : JVal → String
  | .s x => x
  | v => pyStr v

/-! ## Remote Store Gateway (fetch_data, lines 162 to 169) -/

/-- An HTTP response: status code and decoded JSON body. -/
structure HttpResponse where
  status : Nat
  body : JVal

/-- The outcome of one requests.get or requests.put: either a response,
or a network level failure, which requests surfaces as a raised
RequestException. -/
inductive HttpOutcome where
  | resp : HttpResponse → HttpOutcome
  | netError : HttpOutcome

/-- fetch_data(url, headers): r.ok (status below 400) yields r.json();
a non ok status is printed and yields the empty list; a network failure
is an uncaught requests exception, there is no try block around the
call to requests.get. -/
def fetch_data : HttpOutcome → Except PyError JVal
  | .resp r => if r.status < 400 then .ok r.body else .ok (JVal.arr [])
  | .netError => .error PyError.requestException

/-! ## save_file (lines 154 to 160) -/

/-- What gets written to disk: plain text, or the json.dumps rendering
(indent 4, ensure_ascii False) of a JSON value. -/
inductive FileData where
  | text : String → FileData
  | jsonDump : JVal → FileData

/-- save_file(path, content, is_json): serializes when is_json, writes
only when ENABLE_WRITETOFILE; path.write_text raises TypeError when the
data it receives is not a string, which for non json content happens
exactly when the content is not a string (json.dumps always returns a
string).  The returned list is the write performed, empty in dry mode. -/
def save_file (writeToFile : Bool) (path : List String) (content : JVal)
    (isJson : Bool) : Except PyError (List (List String × FileData)) :=
  if isJson then
    if writeToFile then .ok [(path, FileData.jsonDump content)] else .ok []
  else
    if writeToFile then
      match content with
      | .s str => .ok [(path, FileData.text str)]
      | _ => .error PyError.typeError
    else .ok []

/-! ## Exporter (process_scripts, lines 115 to 145) -/

/-- The name computed on line 121: sanitize_filename of the name field,
defaulting to the fixed fallback. -/
def nameOf (sanitize : String → String) (s : Dict) : String :=
  sanitize (asPlainStr ((dget s nameKey).getD (JVal.s defaultScriptName)))

/-- The category computed on line 122: empty unless the category field
is truthy, in which case sanitize_filename of the stripped value. -/
def catOf (sanitize : String → String) (s : Dict) : String :=
  match dget s categoryKey with
  | some v => if truthy v then sanitize (strStrip (asPlainStr v)) else ""
  | none => ""

/-- The shell to extension table of line 133, with default txt. -/
def extTable (shell : JVal) : String :=
  if jvalIsStr shell ("powershell") then ".ps1"
  else if jvalIsStr shell ("python") then ".py"
  else if jvalIsStr shell ("cmd") then ".bat"
  else if jvalIsStr shell ("shell") then ".sh"
  else if jvalIsStr shell ("nushell") then ".nu"
  else ".txt"

/-- The editable file name of line 136: name plus extension. -/
def editName (sanitize : String → String) (s : Dict) : String :=
  nameOf sanitize s ++ extTable ((dget s shellKey).getD JVal.null)

/-- The raw snapshot file name of line 138, for scripts and snippets
alike: the interpolated id, a separator, the name, and a json suffix. -/
def rawNameOf (sanitize : String → String) (s : Dict) : String :=
  pyStr ((dget s idKey).getD JVal.null) ++ " - " ++ nameOf sanitize s ++ ".json"

/-- The path of a produced file relative to its root (lines 141 and 142):
the optional category folder and the file name. -/
def relParts (cat fname : String) : List String :=
  (if cat == "" then [] else [cat]) ++ [fname]

/-- Line 128: a snippet record is already the full payload, a script
needs the detail download keyed by its id. -/
def dataOf (detail : JVal → HttpOutcome) (isSnippet : Bool) (s : Dict) :
    Except PyError JVal :=
  if isSnippet then .ok (JVal.obj s)
  else fetch_data (detail ((dget s idKey).getD JVal.null))

/-- Python set.add on the list representing the running set. -/
def insertSet (l : List (List String)) (a : List String) : List (List String) :=
  if a ∈ l then l else l ++ [a]

/-- Folding set.add over a list of new members, Python set.update. -/
def listInsertAll (cur : List (List String)) (xs : List (List String)) :
    List (List String) :=
  xs.foldl insertSet cur

/-- The state threaded through the export loop: writes performed so far,
the running path set named current in the source, and the shell tally
events (shell_summary[shell] += 1, scripts only). -/
structure ExportAcc where
  writes : List (List String × FileData)
  current : List (List String)
  shells : List JVal

/-- One iteration of the process_scripts loop (lines 119 to 142).  For
the record s: compute name, category and destination folders; obtain the
payload (detail fetch for scripts, the record itself for snippets) and
skip falsy payloads; read the code field; write the editable file and
the raw snapshot; record both relative paths in the current set. -/
def exportStep (writeToFile : Bool) (sanitize : String → String)
    (detail : JVal → HttpOutcome) (scriptFolder scriptRawFolder : List String)
    (isSnippet : Bool) (s : Dict) (acc : ExportAcc) : Except PyError ExportAcc :=
  match dataOf detail isSnippet s with
  | .error e => .error e
  | .ok dataV =>
    if truthy dataV then
      match dataV with
      | .obj dataD =>
        let code := (dget dataD codeKey).getD JVal.null
        let shellV := (dget s shellKey).getD JVal.null
        let cat := catOf sanitize s
        let folder := if cat == "" then scriptFolder else scriptFolder ++ [cat]
        let rawFolder :=
          if cat == "" then scriptRawFolder else scriptRawFolder ++ [cat]
        let fname := editName sanitize s
        let shells := if isSnippet then acc.shells else acc.shells ++ [shellV]
        match save_file writeToFile (folder ++ [fname]) code false with
        | .error e => .error e
        | .ok w1 =>
          let rawName := rawNameOf sanitize s
          match save_file writeToFile (rawFolder ++ [rawName])
              (JVal.obj (dictMerge dataD s)) true with
          | .error e => .error e
          | .ok w2 =>
            .ok ⟨acc.writes ++ w1 ++ w2,
                 insertSet (insertSet acc.current (relParts cat fname))
                   (relParts cat rawName),
                 shells⟩
      | _ => .error PyError.attributeError
    else .ok acc

/-- The loop of process_scripts over the remaining records, one
exportStep per record. -/
def process_scripts_loop (writeToFile : Bool) (sanitize : String → String)
    (detail : JVal → HttpOutcome) (scriptFolder scriptRawFolder : List String)
    (isSnippet : Bool) : List Dict → ExportAcc → Except PyError ExportAcc
  | [], acc => .ok acc
  | s :: rest, acc =>
    match exportStep writeToFile sanitize detail scriptFolder scriptRawFolder
        isSnippet s acc with
    | .error e => .error e
    | .ok acc2 =>
      process_scripts_loop writeToFile sanitize detail scriptFolder
        scriptRawFolder isSnippet rest acc2

/-- process_scripts(scripts, script_folder, script_raw_folder,
shell_summary, is_snippet): runs the loop from an empty accumulator and
returns it; the count the function prints is the length of the current
set it returns. -/
def process_scripts (writeToFile : Bool) (sanitize : String → String)
    (detail : JVal → HttpOutcome) (scripts : List Dict)
    (scriptFolder scriptRawFolder : List String) (isSnippet : Bool) :
    Except PyError ExportAcc :=
  process_scripts_loop writeToFile sanitize detail scriptFolder scriptRawFolder
    isSnippet scripts ⟨[], [], []⟩

/-! ## Reconciler (write_modifications_to_api, lines 171 to 221, and
update_api, lines 223 to 238) -/

/-- A raw snapshot file under the scriptsraw tree as the reconciler sees
it: the file stem (name without the json extension) and the parsed JSON
content. -/
structure RawFile where
  stem : String
  data : Dict

/-- An editable file under the scripts tree: its stem and its content. -/
structure EditFile where
  stem : String
  content : String

/-- One PUT issued against the update endpoint: the interpolated id and
the JSON payload sent. -/
structure UpdateCall where
  sid : JVal
  payload : Dict

/-- The regex substitution on line 177: strip one leading run of digits
followed by the three characters space hyphen space.  The maximal run of
digits is equivalent to the regex backtracking here, because a shorter
run would leave a digit where the pattern requires a space. -/
def stripLeadingId (s : String) : String :=
  let cs := s.toList
  let ds := cs.takeWhile (fun c => c.isDigit)
  if ds.isEmpty then s
  else if (cs.drop ds.length).take 3 = [' ', '-', ' '] then
    String.mk (cs.drop (ds.length + 3))
  else s

/-- The def statement on line 223 declares update_api with two
parameters (script_id, payload). -/
def update_api_paramCount : Nat := 2

/-- The call on line 212 passes three positional arguments:
raw_data.get(id), updated_payload, api_token. -/
def update_api_callArgCount : Nat := 3

/-- The body of update_api (lines 223 to 238): rename the code key of
the payload to script_body (pop with empty default), then PUT; both the
non 200 status and the requests exception paths only print.  In the
embedding the call it would perform is returned. -/
def update_api (script_id : JVal) (payload : Dict) : UpdateCall :=
  ⟨script_id,
   dset (dremove payload codeKey) scriptBodyKey
     ((dget payload codeKey).getD (JVal.s ""))⟩

/-- The loop of write_modifications_to_api over the raw snapshot files.
For each: strip the id prefix from the stem and lowercase it; find the
first editable file whose lowercased stem matches; skip when none.
Hash the editable content and the code field of the raw JSON (hash is
the sha256 hex digest function, passed as a parameter).  On mismatch,
build the updated payload, and inside a try block that only catches
BrokenPipeError: when writeback is enabled, call update_api with three
arguments although it is declared with two, which raises TypeError
before its body runs; when disabled, only print the renamed payload.
The accumulated list is the update calls issued. -/
def reconLoop (writeback : Bool) (hash : String → String)
    (editFiles : List EditFile) :
    List RawFile → List UpdateCall → Except PyError (List UpdateCall)
  | [], acc => .ok acc
  | r :: rest, acc =>
    let bare := strLower (stripLeadingId r.stem)
    match editFiles.find? (fun e => strLower e.stem == bare) with
    | none => reconLoop writeback hash editFiles rest acc
    | some e =>
      match (dget r.data codeKey).getD (JVal.s "") with
      | JVal.s code =>
        if hash e.content == hash code then
          reconLoop writeback hash editFiles rest acc
        else
          match (if writeback then
                   (if update_api_callArgCount == update_api_paramCount then
                      Except.ok [update_api ((dget r.data idKey).getD JVal.null)
                        (dset r.data codeKey (JVal.s e.content))]
                    else Except.error PyError.typeError)
                 else Except.ok []) with
          | .ok newCalls => reconLoop writeback hash editFiles rest (acc ++ newCalls)
          | .error PyError.brokenPipeError => reconLoop writeback hash editFiles rest acc
          | .error e2 => .error e2
      | _ => .error PyError.attributeError

/-- write_modifications_to_api(base_dir, folders, api_token): the loop
above over the raw snapshots, starting from no calls. -/
def write_modifications_to_api (writeback : Bool) (hash : String → String)
    (rawFiles : List RawFile) (editFiles : List EditFile) :
    Except PyError (List UpdateCall) :=
  reconLoop writeback hash editFiles rawFiles []

/-! ## Pruner (delete_obsolete_files, lines 102 to 112) -/

/-- The files and directories that exist under one of the four roots,
as paths relative to that root. -/
structure PruneRoot where
  files : List (List String)
  dirs : List (List String)

/-- Whether path f lies strictly below directory d. -/
def underDir (d f : List String) : Bool :=
  d.isPrefixOf f && decide (d.length < f.length)

/-- Stable insertion into a list sorted by decreasing length, matching
the sort by negated number of path parts on line 109. -/
def insertByLen (d : List String) : List (List String) → List (List String)
  | [] => [d]
  | x :: rest =>
      if x.length < d.length then d :: x :: rest else x :: insertByLen d rest

def sortDirsDesc (l : List (List String)) : List (List String) :=
  l.foldl (fun acc d => insertByLen d acc) []

/-- The second pass of delete_obsolete_files, deepest directories first:
a directory is removed when nothing remains inside it, that is no
surviving file and no surviving deeper directory lies strictly below
it. -/
def dirPassGo (keptFiles : List (List String)) :
    List (List String) → List (List String) → List (List String)
  | [], kept => kept
  | d :: rest, kept =>
      if keptFiles.any (underDir d) || kept.any (underDir d) then
        dirPassGo keptFiles rest (kept ++ [d])
      else dirPassGo keptFiles rest kept

/-- delete_obsolete_files(folder, current_scripts): unlink every file
whose path relative to the root is not a member of the set passed in,
then remove the directories that became empty, deepest first. -/
def delete_obsolete_files (root : PruneRoot) (manifest : List (List String)) :
    PruneRoot :=
  let keptFiles := root.files.filter (fun f => decide (f ∈ manifest))
  ⟨keptFiles, dirPassGo keptFiles (sortDirsDesc root.dirs) []⟩

/-! ## Commit Message Synthesizer (git_push, lines 287 to 304) -/

/-- The four category lists of the changes dictionary on line 287, in
its literal order. -/
structure Changes where
  created : List String
  modified : List String
  deleted : List String
  renamed : List String

def emptyChanges : Changes := ⟨[], [], [], []⟩

/-- One iteration of the classification loop (lines 288 to 295): skip
empty lines; unpack the tab separated status and file, raising
ValueError when the line does not have exactly two fields (which is
what a rename line from git diff actually produces); skip files under
scriptsraw; append to the category selected by the status letter. -/
def applyLine (c : Changes) (line : String) : Except PyError Changes :=
  if line == "" then .ok c
  else
    match splitTab line with
    | [status, file] =>
      if strStarts file scriptsrawSlash then .ok c
      else if strStarts status ("A") then .ok { c with created := c.created ++ [file] }
      else if strStarts status ("M") then .ok { c with modified := c.modified ++ [file] }
      else if strStarts status ("D") then .ok { c with deleted := c.deleted ++ [file] }
      else if strStarts status ("R") then
        match splitWs line with
        | _ :: old :: new :: _ =>
            .ok { c with renamed := c.renamed ++ [old ++ " -> " ++ new] }
        | _ => .error PyError.indexError
      else .ok c
    | _ => .error PyError.valueError

def classifyLines : List String → Changes → Except PyError Changes
  | [], c => .ok c
  | l :: rest, c =>
    match applyLine c l with
    | .ok c2 => classifyLines rest c2
    | .error e => .error e

/-- One clause of the commit message (line 300): category, count, up to
max_files comma joined paths, and an ellipsis when more were present. -/
def clauseOf (label : String) (files : List String) (max_files : Nat) : String :=
  label ++ " " ++ natToStr files.length ++ ": " ++
    joinSep (", ") (files.take max_files) ++
    (if max_files < files.length then "..." else "")

/-- generate_commit_message(changes, max_files=5), lines 298 to 302:
the fixed message when every category is empty, otherwise one clause per
non empty category in dictionary order, joined by semicolons. -/
def generate_commit_message (c : Changes) (max_files : Nat) : String :=
  if c.created.isEmpty && c.modified.isEmpty && c.deleted.isEmpty &&
      c.renamed.isEmpty then "Minor update"
  else
    joinSep ("; ")
      ((([(("created"), c.created), (("modified"), c.modified),
          (("deleted"), c.deleted), (("renamed"), c.renamed)]
            : List (String × List String)).filter
          (fun p => !p.2.isEmpty)).map
        (fun p => clauseOf p.1 p.2 max_files))

/-- The commit message synthesized from the staged name status lines:
classification followed by generate_commit_message at its default
max_files of 5. -/
def commitMessageOf (lines : List String) : Except PyError String :=
  match classifyLines lines emptyChanges with
  | .ok c => .ok (generate_commit_message c 5)
  | .error e => .error e

/-! ## Sync Orchestrator (main, lines 320 to 379) -/

/-- The remote store as main sees it: the two list endpoints and the per
id detail endpoint. -/
structure SyncEnv where
  scriptsList : HttpOutcome
  snippetsList : HttpOutcome
  detail : JVal → HttpOutcome

/-- The on disk state of the four roots at pruning time. -/
structure DiskRoots where
  scripts : PruneRoot
  scriptsraw : PruneRoot
  snippets : PruneRoot
  snippetsraw : PruneRoot

/-- The observable outcome of one run of main: the update calls issued
by the reconciler, the export writes, the combined current_scripts set,
the four roots after pruning, the printed total, and the shell tally
events. -/
structure SyncResult where
  updateCalls : List UpdateCall
  exportWrites : List (List String × FileData)
  manifest : List (List String)
  scriptsAfter : PruneRoot
  scriptsrawAfter : PruneRoot
  snippetsAfter : PruneRoot
  snippetsrawAfter : PruneRoot
  totalReported : Nat
  shells : List JVal

/-- Lines 354 and 355: fetch the script list and keep the items whose
script_type equals userdefined.  Iterating a non list or calling .get on
a non dict raises. -/
def asObjListGo : List JVal → Except PyError (List Dict)
  | [] => .ok []
  | .obj d :: rest => (asObjListGo rest).map (fun ds => d :: ds)
  | _ :: _ => .error PyError.attributeError

def asObjListE : JVal → Except PyError (List Dict)
  | .arr xs => asObjListGo xs
  | _ => .error PyError.typeError

def userScriptsOf (env : SyncEnv) : Except PyError (List Dict) :=
  match fetch_data env.scriptsList with
  | .error e => .error e
  | .ok v =>
    match asObjListE v with
    | .error e => .error e
    | .ok items =>
      .ok (items.filter (fun s =>
        match dget s scriptTypeKey with
        | some w => jvalIsStr w userdefinedStr
        | none => false))

/-- Line 362: fetch the snippet list. -/
def snippetsOf (env : SyncEnv) : Except PyError (List Dict) :=
  match fetch_data env.snippetsList with
  | .error e => .error e
  | .ok v => asObjListE v

/-- main (lines 320 to 379), after the git pull that is an external
collaborator: reconcile, fetch and export the user defined scripts into
scripts and scriptsraw, fetch and export the snippets into snippets and
snippetsraw, merge both current sets into current_scripts, prune all
four roots with that one combined set, and report its size as the
total.  Any exception escaping a stage aborts the run. -/
def main_sync (writeToFile writeback : Bool) (sanitize hash : String → String)
    (env : SyncEnv) (rawFiles : List RawFile) (editFiles : List EditFile)
    (disk : DiskRoots) : Except PyError SyncResult :=
  match write_modifications_to_api writeback hash rawFiles editFiles with
  | .error e => .error e
  | .ok calls =>
    match userScriptsOf env with
    | .error e => .error e
    | .ok userScripts =>
      match process_scripts writeToFile sanitize env.detail userScripts
          [("scripts")] [("scriptsraw")] false with
      | .error e => .error e
      | .ok r1 =>
        match snippetsOf env with
        | .error e => .error e
        | .ok snips =>
          match process_scripts writeToFile sanitize env.detail snips
              [("snippets")] [("snippetsraw")] true with
          | .error e => .error e
          | .ok r2 =>
            let manifest := listInsertAll (listInsertAll [] r1.current) r2.current
            .ok ⟨calls, r1.writes ++ r2.writes, manifest,
                 delete_obsolete_files disk.scripts manifest,
                 delete_obsolete_files disk.scriptsraw manifest,
                 delete_obsolete_files disk.snippets manifest,
                 delete_obsolete_files disk.snippetsraw manifest,
                 manifest.length, r1.shells ++ r2.shells⟩

/-! ## Helper predicates and lemmas for the proofs -/

/-- The two relative paths that one successfully exported record
contributes to the current set: the editable path and the raw snapshot
path.  Note the raw name carries the interpolated id for scripts and
snippets alike. -/
def defPaths (sanitize : String → String) (s : Dict) : List (List String) :=
  [relParts (catOf sanitize s) (editName sanitize s),
   relParts (catOf sanitize s) (rawNameOf sanitize s)]

/-- Whether the record is actually exported (payload obtained, truthy
and a dict), as opposed to skipped by the continue on line 129. -/
def processedB (detail : JVal → HttpOutcome) (snip : Bool) (s : Dict) : Bool :=
  match dataOf detail snip s with
  | .ok v => truthy v && isObjB v
  | .error _ => false

/-- Whether processing the record raises no exception: the detail fetch
does not raise, a truthy payload is a dict, and, when writing is
enabled, the code field is a string so that write_text accepts it. -/
def noErrB (wtf : Bool) (detail : JVal → HttpOutcome) (snip : Bool) (s : Dict) :
    Bool :=
  match dataOf detail snip s with
  | .error _ => false
  | .ok v =>
    if truthy v then
      match v with
      | .obj d => !wtf || isStrB ((dget d codeKey).getD JVal.null)
      | _ => false
    else true

theorem mem_insertSet_of_mem {l : List (List String)} (x : List String)
    {a : List String} (h : a ∈ l) : a ∈ insertSet l x := by
  by_cases hx : x ∈ l <;> simp [insertSet, hx, h]

theorem self_mem_insertSet (l : List (List String)) (x : List String) :
    x ∈ insertSet l x := by
  by_cases hx : x ∈ l <;> simp [insertSet, hx]

theorem mem_listInsertAll_of_mem (xs : List (List String))
    {cur : List (List String)} {a : List String} (h : a ∈ cur) :
    a ∈ listInsertAll cur xs := by
  induction xs generalizing cur with
  | nil => exact h
  | cons x rest ih => exact ih (mem_insertSet_of_mem x h)

theorem mem_listInsertAll_of_mem_arg {xs : List (List String)}
    (cur : List (List String)) {a : List String} (h : a ∈ xs) :
    a ∈ listInsertAll cur xs := by
  induction xs generalizing cur with
  | nil => cases h
  | cons x rest ih =>
    rcases List.mem_cons.mp h with rfl | h2
    · exact mem_listInsertAll_of_mem rest (self_mem_insertSet cur a)
    · exact ih (insertSet cur x) h2

theorem listInsertAll_eq_append :
    ∀ (xs cur : List (List String)), (cur ++ xs).Nodup →
      listInsertAll cur xs = cur ++ xs := by
  intro xs
  induction xs with
  | nil => intro cur _; simp [listInsertAll]
  | cons x rest ih =>
    intro cur h
    have hx : x ∉ cur := fun hmem =>
      (List.nodup_append.mp h).2.2 hmem (List.mem_cons_self x rest)
    have hins : insertSet cur x = cur ++ [x] := by simp [insertSet, hx]
    show listInsertAll (insertSet cur x) rest = cur ++ x :: rest
    rw [hins]
    have h2 : ((cur ++ [x]) ++ rest).Nodup := by
      simpa [List.append_assoc] using h
    rw [ih (cur ++ [x]) h2]
    simp

theorem flatMap_defPaths_length (san : String → String) :
    ∀ l : List Dict, (l.flatMap (defPaths san)).length = 2 * l.length := by
  intro l
  induction l with
  | nil => rfl
  | cons s rest ih =>
    simp only [List.flatMap_cons, List.length_append, List.length_cons, ih]
    simp [defPaths]
    omega

theorem save_file_dry (p : List String) (c : JVal) (j : Bool) :
    save_file false p c j = .ok [] := by
  cases j <;> rfl

theorem exportStep_skipped (wtf : Bool) (san : String → String)
    (detail : JVal → HttpOutcome) (sf rf : List String) (snip : Bool)
    (s : Dict) (acc : ExportAcc)
    (hproc : processedB detail snip s = false)
    (hok : noErrB wtf detail snip s = true) :
    exportStep wtf san detail sf rf snip s acc = .ok acc := by
  unfold processedB at hproc
  unfold noErrB at hok
  unfold exportStep
  cases hdata : dataOf detail snip s with
  | error e => rw [hdata] at hok; simp at hok
  | ok v =>
    simp only [hdata] at hproc hok
    by_cases htr : truthy v = true
    · simp only [htr, Bool.true_and, Bool.not_true, Bool.false_or] at hproc hok
      cases v <;> simp_all [isObjB]
    · have htr2 : truthy v = false := by revert htr; cases truthy v <;> simp
      simp [htr2]

theorem exportStep_processed (wtf : Bool) (san : String → String)
    (detail : JVal → HttpOutcome) (sf rf : List String) (snip : Bool)
    (s : Dict) (acc : ExportAcc)
    (hproc : processedB detail snip s = true)
    (hok : noErrB wtf detail snip s = true) :
    ∃ acc2, exportStep wtf san detail sf rf snip s acc = .ok acc2 ∧
      acc2.current =
        insertSet (insertSet acc.current (relParts (catOf san s) (editName san s)))
          (relParts (catOf san s) (rawNameOf san s)) := by
  unfold processedB at hproc
  unfold noErrB at hok
  unfold exportStep
  cases hdata : dataOf detail snip s with
  | error e => rw [hdata] at hproc; simp at hproc
  | ok v =>
    simp only [hdata] at hproc hok
    rw [Bool.and_eq_true] at hproc
    obtain ⟨htr, hobj⟩ := hproc
    cases v with
    | obj dataD =>
      simp only [htr, Bool.not_true, Bool.false_or] at hok
      simp only [htr, if_true]
      cases wtf with
      | false =>
        simp only [save_file_dry]
        exact ⟨_, rfl, rfl⟩
      | true =>
        simp only [Bool.not_true, Bool.false_or] at hok
        cases hcode : (dget dataD codeKey).getD JVal.null <;>
          rw [hcode] at hok <;> simp [isStrB] at hok
        case s str =>
          simp only [hcode, save_file]
          exact ⟨_, rfl, rfl⟩
    | null => simp [isObjB] at hobj
    | b x => simp [isObjB] at hobj
    | i x => simp [isObjB] at hobj
    | s x => simp [isObjB] at hobj
    | arr x => simp [isObjB] at hobj


theorem process_loop_char (wtf : Bool) (san : String → String)
    (detail : JVal → HttpOutcome) (sf rf : List String) (snip : Bool) :
    ∀ (scripts : List Dict) (acc : ExportAcc),
      scripts.all (noErrB wtf detail snip) = true →
      ∃ r, process_scripts_loop wtf san detail sf rf snip scripts acc = .ok r ∧
        r.current = listInsertAll acc.current
          ((scripts.filter (processedB detail snip)).flatMap (defPaths san)) := by
  intro scripts
  induction scripts with
  | nil =>
    intro acc _
    exact ⟨acc, rfl, by simp [listInsertAll]⟩
  | cons s rest ih =>
    intro acc hall
    rw [List.all_cons, Bool.and_eq_true] at hall
    obtain ⟨hs, hrest⟩ := hall
    by_cases hproc : processedB detail snip s = true
    · obtain ⟨acc2, hstep, hcur⟩ :=
        exportStep_processed wtf san detail sf rf snip s acc hproc hs
      obtain ⟨r, hloop, hrcur⟩ := ih acc2 hrest
      refine ⟨r, ?_, ?_⟩
      · unfold process_scripts_loop
        rw [hstep]
        exact hloop
      · rw [hrcur, hcur]
        simp only [List.filter_cons, hproc, if_true, List.flatMap_cons, defPaths]
        rfl
    · have hproc2 : processedB detail snip s = false := by
        revert hproc; cases processedB detail snip s <;> simp
      have hstep := exportStep_skipped wtf san detail sf rf snip s acc hproc2 hs
      obtain ⟨r, hloop, hrcur⟩ := ih acc hrest
      refine ⟨r, ?_, ?_⟩
      · unfold process_scripts_loop
        rw [hstep]
        exact hloop
      · rw [hrcur]
        simp [List.filter_cons, hproc2]

theorem process_scripts_char (wtf : Bool) (san : String → String)
    (detail : JVal → HttpOutcome) (sf rf : List String) (snip : Bool)
    (scripts : List Dict) (hall : scripts.all (noErrB wtf detail snip) = true) :
    ∃ r, process_scripts wtf san detail scripts sf rf snip = .ok r ∧
      r.current = listInsertAll []
        ((scripts.filter (processedB detail snip)).flatMap (defPaths san)) := by
  exact process_loop_char wtf san detail sf rf snip scripts ⟨[], [], []⟩ hall

theorem exportStep_dry_writes (san : String → String) (detail : JVal → HttpOutcome)
    (sf rf : List String) (snip : Bool) (s : Dict) (acc acc2 : ExportAcc)
    (h : exportStep false san detail sf rf snip s acc = .ok acc2) :
    acc2.writes = acc.writes := by
  unfold exportStep at h
  cases hdata : dataOf detail snip s with
  | error e => rw [hdata] at h; simp at h
  | ok v =>
    simp only [hdata] at h
    by_cases htr : truthy v = true
    · simp only [htr, if_true] at h
      cases v with
      | obj dataD =>
        simp only [save_file_dry] at h
        cases h
        simp
      | null => simp at h
      | b x => simp at h
      | i x => simp at h
      | s x => simp at h
      | arr x => simp at h
    · have htr2 : truthy v = false := by revert htr; cases truthy v <;> simp
      simp only [htr2] at h
      simp at h
      rw [← h]

theorem process_loop_dry_writes (san : String → String)
    (detail : JVal → HttpOutcome) (sf rf : List String) (snip : Bool) :
    ∀ (scripts : List Dict) (acc : ExportAcc) (r : ExportAcc),
      process_scripts_loop false san detail sf rf snip scripts acc = .ok r →
      r.writes = acc.writes := by
  intro scripts
  induction scripts with
  | nil =>
    intro acc r h
    cases h
    rfl
  | cons s rest ih =>
    intro acc r h
    unfold process_scripts_loop at h
    cases hstep : exportStep false san detail sf rf snip s acc with
    | error e => rw [hstep] at h; simp at h
    | ok acc2 =>
      rw [hstep] at h
      dsimp only at h
      rw [ih acc2 r h]
      exact exportStep_dry_writes san detail sf rf snip s acc acc2 hstep

theorem noErrB_false_of_true (detail : JVal → HttpOutcome) (snip : Bool) (s : Dict)
    (h : noErrB true detail snip s = true) : noErrB false detail snip s = true := by
  unfold noErrB at *
  cases hdata : dataOf detail snip s with
  | error e => rw [hdata] at h; simp at h
  | ok v =>
    simp only [hdata] at h ⊢
    by_cases htr : truthy v = true
    · simp only [htr, Bool.not_true, Bool.false_or] at h ⊢
      cases v <;> simp_all
    · have htr2 : truthy v = false := by revert htr; cases truthy v <;> simp
      simp [htr2]

theorem all_noErrB_false_of_true (detail : JVal → HttpOutcome) (snip : Bool)
    (l : List Dict) (h : l.all (noErrB true detail snip) = true) :
    l.all (noErrB false detail snip) = true := by
  rw [List.all_eq_true] at h ⊢
  exact fun s hs => noErrB_false_of_true detail snip s (h s hs)



theorem pruneMemIff (root : PruneRoot) (manifest : List (List String))
    (f : List String) :
    f ∈ (delete_obsolete_files root manifest).files ↔
      f ∈ root.files ∧ f ∈ manifest := by
  simp [delete_obsolete_files, List.mem_filter]

theorem mem_insertByLen {x d : List String} :
    ∀ l, x ∈ insertByLen d l → x = d ∨ x ∈ l := by
  intro l
  induction l with
  | nil =>
    intro h
    simp [insertByLen] at h
    exact Or.inl h
  | cons y rest ih =>
    intro h
    unfold insertByLen at h
    split at h
    · rcases List.mem_cons.mp h with rfl | h2
      · exact Or.inl rfl
      · exact Or.inr h2
    · rcases List.mem_cons.mp h with rfl | h2
      · exact Or.inr (List.mem_cons_self _ _)
      · rcases ih h2 with h3 | h3
        · exact Or.inl h3
        · exact Or.inr (List.mem_cons_of_mem _ h3)

theorem mem_foldl_insertByLen {x : List String} :
    ∀ (l acc : List (List String)),
      x ∈ l.foldl (fun a d => insertByLen d a) acc → x ∈ acc ∨ x ∈ l := by
  intro l
  induction l with
  | nil => intro acc h; exact Or.inl h
  | cons d rest ih =>
    intro acc h
    rcases ih (insertByLen d acc) h with h2 | h2
    · rcases mem_insertByLen acc h2 with h3 | h3
      · exact Or.inr (h3 ▸ List.mem_cons_self _ _)
      · exact Or.inl h3
    · exact Or.inr (List.mem_cons_of_mem _ h2)

theorem mem_sortDirsDesc {x : List String} (l : List (List String))
    (h : x ∈ sortDirsDesc l) : x ∈ l := by
  rcases mem_foldl_insertByLen l [] h with h2 | h2
  · cases h2
  · exact h2

theorem dirPassGo_not_mem (kf : List (List String)) (d : List String)
    (hkf : kf.any (underDir d) = false) :
    ∀ (ds acc : List (List String)),
      (∀ x ∈ ds, underDir d x = false) →
      (∀ x ∈ acc, underDir d x = false) →
      d ∉ acc → d ∉ dirPassGo kf ds acc := by
  intro ds
  induction ds with
  | nil => intro acc _ _ hd; exact hd
  | cons x rest ih =>
    intro acc hds hacc hd
    unfold dirPassGo
    split
    case isTrue hcond =>
      apply ih
      · intro y hy
        exact hds y (List.mem_cons_of_mem x hy)
      · intro y hy
        rcases List.mem_append.mp hy with hy1 | hy2
        · exact hacc y hy1
        · rw [List.mem_singleton] at hy2
          subst hy2
          exact hds y (List.mem_cons_self _ _)
      · intro hmem
        rcases List.mem_append.mp hmem with h1 | h2
        · exact hd h1
        · rw [List.mem_singleton] at h2
          subst h2
          rw [hkf, Bool.false_or] at hcond
          obtain ⟨y, hy, hdy⟩ := List.any_eq_true.mp hcond
          rw [hacc y hy] at hdy
          cases hdy
    case isFalse hcond =>
      exact ih acc (fun y hy => hds y (List.mem_cons_of_mem x hy)) hacc hd

theorem prune_removes_empty_dir (root : PruneRoot) (manifest : List (List String))
    (d : List String)
    (h1 : ((delete_obsolete_files root manifest).files).any (underDir d) = false)
    (h2 : root.dirs.any (underDir d) = false) :
    d ∉ (delete_obsolete_files root manifest).dirs := by
  have hpt : ∀ x ∈ root.dirs, underDir d x = false := by
    intro x hx
    by_cases hb : underDir d x = true
    · rw [List.any_eq_false] at h2
      exact absurd hb (h2 x hx)
    · revert hb; cases underDir d x <;> simp
  apply dirPassGo_not_mem _ _ h1
  · intro x hx
    exact hpt x (mem_sortDirsDesc root.dirs hx)
  · intro x hx
    cases hx
  · intro hx
    cases hx



theorem main_sync_fields (wtf wb : Bool) (san hash : String → String)
    (env : SyncEnv) (raws : List RawFile) (edits : List EditFile)
    (disk : DiskRoots) (r : SyncResult)
    (h : main_sync wtf wb san hash env raws edits disk = .ok r) :
    r.scriptsAfter = delete_obsolete_files disk.scripts r.manifest ∧
    r.scriptsrawAfter = delete_obsolete_files disk.scriptsraw r.manifest ∧
    r.snippetsAfter = delete_obsolete_files disk.snippets r.manifest ∧
    r.snippetsrawAfter = delete_obsolete_files disk.snippetsraw r.manifest ∧
    r.totalReported = r.manifest.length ∧
    ∃ scripts snips r1 r2,
      userScriptsOf env = .ok scripts ∧
      snippetsOf env = .ok snips ∧
      process_scripts wtf san env.detail scripts [("scripts")] [("scriptsraw")]
        false = .ok r1 ∧
      process_scripts wtf san env.detail snips [("snippets")] [("snippetsraw")]
        true = .ok r2 ∧
      r.exportWrites = r1.writes ++ r2.writes ∧
      r.manifest = listInsertAll (listInsertAll [] r1.current) r2.current := by
  unfold main_sync at h
  cases hrec : write_modifications_to_api wb hash raws edits with
  | error e => rw [hrec] at h; simp at h
  | ok calls =>
    simp only [hrec] at h
    cases hu : userScriptsOf env with
    | error e => rw [hu] at h; simp at h
    | ok scripts =>
      simp only [hu] at h
      cases hp1 : process_scripts wtf san env.detail scripts
          [("scripts")] [("scriptsraw")] false with
      | error e => rw [hp1] at h; simp at h
      | ok r1 =>
        simp only [hp1] at h
        cases hsn : snippetsOf env with
        | error e => rw [hsn] at h; simp at h
        | ok snips =>
          simp only [hsn] at h
          cases hp2 : process_scripts wtf san env.detail snips
              [("snippets")] [("snippetsraw")] true with
          | error e => rw [hp2] at h; simp at h
          | ok r2 =>
            simp only [hp2] at h
            rw [Except.ok.injEq] at h
            subst h
            exact ⟨rfl, rfl, rfl, rfl, rfl, scripts, snips, r1, r2,
              rfl, rfl, hp1, hp2, rfl, rfl⟩

/-! ## Concrete runs used by the claim theorems and witnesses -/

/-- A remote store whose two list endpoints answer 200 with an empty
list and whose detail endpoint fails at network level (never called in
the runs that use this environment). -/
def env0 : SyncEnv :=
  ⟨.resp ⟨200, .arr []⟩, .resp ⟨200, .arr []⟩, fun _ => .netError⟩

def emptyRoot : PruneRoot := ⟨[], []⟩

def emptyDisk : DiskRoots := ⟨emptyRoot, emptyRoot, emptyRoot, emptyRoot⟩

/-- The run outcome of an empty store against an empty working tree. -/
def emptyRun : SyncResult :=
  ⟨[], [], [], emptyRoot, emptyRoot, emptyRoot, emptyRoot, 0, []⟩

/-- One raw snapshot whose stored code differs from its editable file. -/
def rawsC1 : List RawFile :=
  [⟨"1 - foo", [(idKey, JVal.i 1), (codeKey, JVal.s ("old"))]⟩]

def editsC1 : List EditFile := [⟨"foo", "new"⟩]

/-- A snippet record: id 7, name bar, powershell, code x. -/
def snipBarDef : Dict :=
  [(idKey, JVal.i 7), (nameKey, JVal.s ("bar")),
   (shellKey, JVal.s ("powershell")), (codeKey, JVal.s ("x"))]

/-- A snippet record named foo whose editable file lands at foo.ps1. -/
def snipFooDef : Dict :=
  [(idKey, JVal.i 7), (nameKey, JVal.s ("foo")),
   (shellKey, JVal.s ("powershell")), (codeKey, JVal.s ("x"))]

/-- A user defined script whose detail payload is non empty but has no
code field. -/
def scrNoCode : Dict :=
  [(idKey, JVal.i 5), (nameKey, JVal.s ("x")), (shellKey, JVal.s ("python")),
   (scriptTypeKey, JVal.s ("userdefined"))]

def envNoCode : SyncEnv :=
  ⟨.resp ⟨200, .arr [.obj scrNoCode]⟩, .resp ⟨200, .arr []⟩,
   fun _ => .resp ⟨200, .obj [(nameKey, JVal.s ("x"))]⟩⟩

/-- A store with no scripts and one snippet named foo. -/
def envLeak : SyncEnv :=
  ⟨.resp ⟨200, .arr []⟩, .resp ⟨200, .arr [.obj snipFooDef]⟩,
   fun _ => .netError⟩

/-- A working tree whose scripts root holds a stale file foo.ps1. -/
def diskLeak : DiskRoots := ⟨⟨[[("foo.ps1")]], []⟩, emptyRoot, emptyRoot, emptyRoot⟩

/-- A working tree whose scripts root holds one stale file and one
empty directory. -/
def diskStale : DiskRoots :=
  ⟨⟨[[("stale.txt")]], [[("emptyd")]]⟩, emptyRoot, emptyRoot, emptyRoot⟩

/-- A working tree whose scripts root holds one stale file. -/
def diskW : DiskRoots := ⟨⟨[[("old.txt")]], []⟩, emptyRoot, emptyRoot, emptyRoot⟩

/-- A user defined script record: id 3, name foo, python. -/
def scrFooDef : Dict :=
  [(idKey, JVal.i 3), (nameKey, JVal.s ("foo")), (shellKey, JVal.s ("python")),
   (scriptTypeKey, JVal.s ("userdefined"))]

/-- A store with one user defined script and one snippet, whose detail
endpoint returns a payload with a code string. -/
def envC8 : SyncEnv :=
  ⟨.resp ⟨200, .arr [.obj scrFooDef]⟩, .resp ⟨200, .arr [.obj snipBarDef]⟩,
   fun _ => .resp ⟨200, .obj [(codeKey, JVal.s ("pass"))]⟩⟩

/-- Definition following the words of the spec (P4 and Invariant I2):
the Manifest scoped to one root is the set of relative paths the run
intends to place under that root; for the editable scripts root these
are the editable paths of the script Definitions exported this run.
It exists only to compare the claimed per root scoping with what the
code does, which keeps a single combined set. -/
def specScopedManifest (san : String → String) (detail : JVal → HttpOutcome)
    (snip : Bool) (defs : List Dict) : List (List String) :=
  (defs.filter (processedB detail snip)).map
    (fun s => relParts (catOf san s) (editName san s))

/-! ## Claim theorems -/

/-- C1: the claim says a run with writeback enabled issues exactly one
update call per drifted snapshot, carrying the edited content under a
script_body key, with push failures logged and non blocking.  The code
cannot do this: line 212 calls update_api with three positional
arguments while line 223 declares it with two, so Python raises
TypeError at the first drifted file, before any request is made, and
the surrounding try only catches BrokenPipeError, so the whole run
aborts.  This theorem evaluates the embedded code at such a failing
input: the reconciler, and the whole run, end in TypeError. -/
theorem writeback_call_arity_typeerror :
    write_modifications_to_api true id rawsC1 editsC1 =
      .error PyError.typeError ∧
    main_sync true true id id env0 rawsC1 editsC1 emptyDisk =
      .error PyError.typeError ∧
    update_api_callArgCount ≠ update_api_paramCount :=
  ⟨rfl, rfl, by decide⟩

/-- C2 counterexample: the claim says that after pruning each root
retains exactly the Manifest members scoped to that root.  In this run
there are no script Definitions at all, so the Manifest scoped to the
scripts root (modelled from the words of the spec) is empty, yet a
stale file foo.ps1 under the scripts root survives pruning, because the
code passes the single combined set to every root and a snippet
contributed the same relative path foo.ps1 under the snippets root. -/
theorem prune_scope_cross_root_leak :
    userScriptsOf envLeak = .ok [] ∧
    specScopedManifest id (fun _ => HttpOutcome.netError) false [] = [] ∧
    (main_sync true true id id envLeak [] [] diskLeak).map
      (fun r => r.scriptsAfter.files) = .ok [[("foo.ps1")]] :=
  ⟨rfl, rfl, rfl⟩

/-- C3 counterexample: the claim says any list or detail failure,
including a network failure, degrades to an empty result and never
raises past the Gateway.  A network failure on the script list call
raises a requests exception that nothing catches, and the run aborts. -/
theorem fetch_network_failure_raises :
    fetch_data HttpOutcome.netError = .error PyError.requestException ∧
    main_sync false false id id ⟨.netError, .netError, fun _ => .netError⟩
      [] [] emptyDisk = .error PyError.requestException :=
  ⟨rfl, rfl⟩

/-- C4 counterexample: the claim says a snippet raw snapshot is named
sanitizedName plus a json suffix with no id prefix.  Exporting the
snippet with id 7 and name bar produces the raw path 7 - bar.json, and
no bar.json path, because line 138 builds the raw name with the id for
scripts and snippets alike. -/
theorem snippet_raw_name_includes_id :
    (process_scripts true id (fun _ => HttpOutcome.netError) [snipBarDef]
        [("snippets")] [("snippetsraw")] true).map (fun r => r.current) =
      .ok [[("bar.ps1")], [("7 - bar.json")]] ∧
    ([("bar.json")] : List String) ∉
      ([[("bar.ps1")], [("7 - bar.json")]] : List (List String)) :=
  ⟨rfl, by decide⟩

/-- C5 counterexample: the claim says no staged path under a raw
snapshot subtree appears in any clause of the synthesized message, but
line 291 only skips paths under scriptsraw, so a path under snippetsraw
is classified and appears verbatim in the message. -/
theorem snippetsraw_appears_in_commit_message :
    commitMessageOf [("A\tsnippetsraw/x.json")] =
      .ok ("created 1: snippetsraw/x.json") ∧
    (classifyLines [("A\tsnippetsraw/x.json")] emptyChanges).map
      (fun c => c.created) = .ok [("snippetsraw/x.json")] :=
  ⟨rfl, rfl⟩

/-- C6: the synthesized message is the fixed string Minor update when
no non raw change is staged (here: nothing staged, and a raw only
change), is exactly created 1: a.ps1; deleted 1: b.py for one created
and one deleted file, and clips a clause at five comma joined paths
with a trailing ellipsis. -/
theorem commit_message_examples :
    commitMessageOf [] = .ok ("Minor update") ∧
    commitMessageOf [("A\tscriptsraw/x.json")] = .ok ("Minor update") ∧
    commitMessageOf [("A\ta.ps1"), ("D\tb.py")] =
      .ok ("created 1: a.ps1; deleted 1: b.py") ∧
    commitMessageOf [("A\tf1"), ("A\tf2"), ("A\tf3"), ("A\tf4"), ("A\tf5"),
      ("A\tf6")] = .ok ("created 6: f1, f2, f3, f4, f5...") :=
  ⟨rfl, rfl, rfl, rfl⟩

/-- C10: a Definition whose fetched payload is non empty but lacks a
string code field makes the export step, and so the whole run, raise
TypeError when writing is enabled: data.get(code) is None and
write_text(None) raises; nothing catches it, so the run aborts instead
of skipping the Definition. -/
theorem missing_code_field_aborts_run :
    main_sync true true id id envNoCode [] [] emptyDisk =
      .error PyError.typeError ∧
    save_file true [("x.py")] JVal.null false = .error PyError.typeError :=
  ⟨rfl, rfl⟩

/-- C2 amended claim: after the Prune stage each of the four roots
retains exactly those files whose root relative path is a member of the
single combined run Manifest (editable and raw paths of scripts and
snippets together); no combined Manifest member is deleted and every
file outside the combined Manifest is deleted, but a file under one
root may survive because its relative path was contributed for a
different root. -/
theorem prune_keeps_exactly_combined_manifest (wtf wb : Bool)
    (san hash : String → String) (env : SyncEnv) (raws : List RawFile)
    (edits : List EditFile) (disk : DiskRoots) (r : SyncResult)
    (f : List String)
    (h : main_sync wtf wb san hash env raws edits disk = .ok r) :
    (f ∈ r.scriptsAfter.files ↔ f ∈ disk.scripts.files ∧ f ∈ r.manifest) ∧
    (f ∈ r.scriptsrawAfter.files ↔ f ∈ disk.scriptsraw.files ∧ f ∈ r.manifest) ∧
    (f ∈ r.snippetsAfter.files ↔ f ∈ disk.snippets.files ∧ f ∈ r.manifest) ∧
    (f ∈ r.snippetsrawAfter.files ↔ f ∈ disk.snippetsraw.files ∧ f ∈ r.manifest) := by
  obtain ⟨h1, h2, h3, h4, _⟩ :=
    main_sync_fields wtf wb san hash env raws edits disk r h
  rw [h1, h2, h3, h4]
  exact ⟨pruneMemIff _ _ _, pruneMemIff _ _ _, pruneMemIff _ _ _,
    pruneMemIff _ _ _⟩

/-- C2 witness: the amended pruning statement evaluated on a concrete
run with an empty remote store and one stale file under the scripts
root, which the pruner deletes. -/
theorem prune_keeps_exactly_combined_manifest_check :
    ((["old.txt"] : List String) ∈ emptyRun.scriptsAfter.files ↔
      (["old.txt"] : List String) ∈ diskW.scripts.files ∧
      (["old.txt"] : List String) ∈ emptyRun.manifest) ∧
    ((["old.txt"] : List String) ∈ emptyRun.scriptsrawAfter.files ↔
      (["old.txt"] : List String) ∈ diskW.scriptsraw.files ∧
      (["old.txt"] : List String) ∈ emptyRun.manifest) ∧
    ((["old.txt"] : List String) ∈ emptyRun.snippetsAfter.files ↔
      (["old.txt"] : List String) ∈ diskW.snippets.files ∧
      (["old.txt"] : List String) ∈ emptyRun.manifest) ∧
    ((["old.txt"] : List String) ∈ emptyRun.snippetsrawAfter.files ↔
      (["old.txt"] : List String) ∈ diskW.snippetsraw.files ∧
      (["old.txt"] : List String) ∈ emptyRun.manifest) :=
  prune_keeps_exactly_combined_manifest false false id id env0 [] [] diskW
    emptyRun [("old.txt")] rfl

/-- C3 amended claim: a list or detail response with an HTTP status of
400 or more (requests r.ok false) is logged, degrades to an empty
result and the run continues to completion; a network failure, by
contrast, raises past the Gateway and aborts the run (shown by the C3
counterexample). -/
theorem fetch_http_error_degrades_empty (st : Nat) (bd : JVal)
    (h : 400 ≤ st) :
    fetch_data (HttpOutcome.resp ⟨st, bd⟩) = .ok (JVal.arr []) ∧
    main_sync false false id id
      ⟨HttpOutcome.resp ⟨st, bd⟩, HttpOutcome.resp ⟨200, JVal.arr []⟩,
       fun _ => HttpOutcome.netError⟩ [] [] emptyDisk = .ok emptyRun := by
  have hf : fetch_data (HttpOutcome.resp ⟨st, bd⟩) = .ok (JVal.arr []) := by
    show (if st < 400 then Except.ok bd else Except.ok (JVal.arr [])) =
      Except.ok (JVal.arr [])
    rw [if_neg (by omega)]
  refine ⟨hf, ?_⟩
  unfold main_sync userScriptsOf
  simp only [hf]
  rfl

/-- C3 witness: the degradation statement at the concrete status 500. -/
theorem fetch_http_error_degrades_empty_check :
    fetch_data (HttpOutcome.resp ⟨500, JVal.null⟩) = .ok (JVal.arr []) ∧
    main_sync false false id id
      ⟨HttpOutcome.resp ⟨500, JVal.null⟩, HttpOutcome.resp ⟨200, JVal.arr []⟩,
       fun _ => HttpOutcome.netError⟩ [] [] emptyDisk = .ok emptyRun :=
  fetch_http_error_degrades_empty 500 JVal.null (by decide)

/-- C4 amended claim: for scripts and snippets alike, every exported
record contributes a raw snapshot whose file name is the interpolated
id, the separator, the sanitized name and the json suffix; there is no
id free naming for snippets. -/
theorem raw_snapshot_naming_uniform (wtf : Bool) (san : String → String)
    (detail : JVal → HttpOutcome) (sf rf : List String) (snip : Bool)
    (scripts : List Dict)
    (hall : scripts.all (noErrB wtf detail snip) = true) :
    ∃ r, process_scripts wtf san detail scripts sf rf snip = .ok r ∧
      ∀ s ∈ scripts, processedB detail snip s = true →
        relParts (catOf san s)
            (pyStr ((dget s idKey).getD JVal.null) ++ " - " ++
              nameOf san s ++ ".json") ∈ r.current := by
  obtain ⟨r, hr, hcur⟩ := process_scripts_char wtf san detail sf rf snip scripts hall
  refine ⟨r, hr, ?_⟩
  intro s hs hproc
  rw [hcur]
  apply mem_listInsertAll_of_mem_arg
  apply List.mem_flatMap.mpr
  refine ⟨s, List.mem_filter.mpr ⟨hs, hproc⟩, ?_⟩
  simp [defPaths, rawNameOf]

/-- C4 witness: the uniform naming statement evaluated on the concrete
snippet with id 7 and name bar. -/
theorem raw_snapshot_naming_uniform_check :
    ∃ r, process_scripts true id (fun _ => HttpOutcome.netError) [snipBarDef]
        [("snippets")] [("snippetsraw")] true = .ok r ∧
      ∀ s ∈ [snipBarDef],
        processedB (fun _ => HttpOutcome.netError) true s = true →
        relParts (catOf id s)
            (pyStr ((dget s idKey).getD JVal.null) ++ " - " ++
              nameOf id s ++ ".json") ∈ r.current :=
  raw_snapshot_naming_uniform true id (fun _ => HttpOutcome.netError)
    [("snippets")] [("snippetsraw")] true [snipBarDef] (by decide)

/-- C5 amended claim: only staged paths under scriptsraw are excluded
from the commit message classification: a line whose tab separated file
field starts with scriptsraw contributes to no category, leaving the
changes dictionary untouched; paths under snippetsraw are classified
and do appear (shown by the C5 counterexample). -/
theorem scriptsraw_excluded_from_classification (c : Changes)
    (line status file : String)
    (h1 : splitTab line = [status, file])
    (h2 : strStarts file scriptsrawSlash = true) :
    applyLine c line = .ok c := by
  unfold applyLine
  cases hline : line == "" with
  | true =>
    have hl : line = "" := eq_of_beq hline
    subst hl
    have he : splitTab "" = [""] := rfl
    rw [he] at h1
    simp at h1
  | false =>
    simp only [hline, Bool.false_eq_true, if_false]
    rw [h1]
    simp [h2]

/-- C5 witness: the exclusion statement at a concrete created line
under scriptsraw. -/
theorem scriptsraw_excluded_from_classification_check :
    applyLine emptyChanges ("A\tscriptsraw/x.json") = .ok emptyChanges :=
  scriptsraw_excluded_from_classification emptyChanges
    ("A\tscriptsraw/x.json") ("A") ("scriptsraw/x.json") rfl rfl

/-- C7: when writing to files is disabled the export step performs no
write at all, yet for every Definition it processes both the editable
and the raw relative path are still recorded in the returned current
set, and that set is exactly the one a non dry run would record. -/
theorem dry_run_records_manifest (san : String → String)
    (detail : JVal → HttpOutcome) (sf rf : List String) (snip : Bool)
    (scripts : List Dict)
    (hall : scripts.all (noErrB true detail snip) = true) :
    ∃ r, process_scripts false san detail scripts sf rf snip = .ok r ∧
      r.writes = [] ∧
      (∀ s ∈ scripts, processedB detail snip s = true →
        relParts (catOf san s) (editName san s) ∈ r.current ∧
        relParts (catOf san s) (rawNameOf san s) ∈ r.current) ∧
      (∀ rw2, process_scripts true san detail scripts sf rf snip = .ok rw2 →
        rw2.current = r.current) := by
  have hall2 := all_noErrB_false_of_true detail snip scripts hall
  obtain ⟨r, hr, hcur⟩ := process_scripts_char false san detail sf rf snip scripts hall2
  refine ⟨r, hr, ?_, ?_, ?_⟩
  · exact process_loop_dry_writes san detail sf rf snip scripts ⟨[], [], []⟩ r hr
  · intro s hs hproc
    constructor
    · rw [hcur]
      apply mem_listInsertAll_of_mem_arg
      apply List.mem_flatMap.mpr
      exact ⟨s, List.mem_filter.mpr ⟨hs, hproc⟩, by simp [defPaths]⟩
    · rw [hcur]
      apply mem_listInsertAll_of_mem_arg
      apply List.mem_flatMap.mpr
      exact ⟨s, List.mem_filter.mpr ⟨hs, hproc⟩, by simp [defPaths]⟩
  · intro rw2 h2
    obtain ⟨r3, hr3, hcur3⟩ := process_scripts_char true san detail sf rf snip scripts hall
    rw [h2] at hr3
    rw [Except.ok.injEq] at hr3
    rw [hr3, hcur3, hcur]

/-- C7 witness: the dry run statement evaluated on one concrete
snippet. -/
theorem dry_run_records_manifest_check :
    ∃ r, process_scripts false id (fun _ => HttpOutcome.netError) [snipBarDef]
        [("snippets")] [("snippetsraw")] true = .ok r ∧
      r.writes = [] ∧
      (∀ s ∈ [snipBarDef],
        processedB (fun _ => HttpOutcome.netError) true s = true →
        relParts (catOf id s) (editName id s) ∈ r.current ∧
        relParts (catOf id s) (rawNameOf id s) ∈ r.current) ∧
      (∀ rw2, process_scripts true id (fun _ => HttpOutcome.netError)
          [snipBarDef] [("snippets")] [("snippetsraw")] true = .ok rw2 →
        rw2.current = r.current) :=
  dry_run_records_manifest id (fun _ => HttpOutcome.netError) [("snippets")]
    [("snippetsraw")] true [snipBarDef] (by decide)

/-- C8: with k script Definitions and m snippet Definitions all
exported and no path collisions, the count each export step returns and
prints is twice the number of its Definitions (one editable plus one
raw entry each), and the total the run reports at the end is 2(k+m),
the number of Manifest entries, not the number of Definitions. -/
theorem export_count_counts_both_files (wtf wb : Bool)
    (san hash : String → String) (env : SyncEnv) (raws : List RawFile)
    (edits : List EditFile) (disk : DiskRoots) (calls : List UpdateCall)
    (scripts snips : List Dict)
    (hrec : write_modifications_to_api wb hash raws edits = .ok calls)
    (hu : userScriptsOf env = .ok scripts)
    (hsn : snippetsOf env = .ok snips)
    (h1 : scripts.all (noErrB wtf env.detail false) = true)
    (h2 : scripts.all (processedB env.detail false) = true)
    (h3 : snips.all (noErrB wtf env.detail true) = true)
    (h4 : snips.all (processedB env.detail true) = true)
    (h5 : (scripts.flatMap (defPaths san) ++ snips.flatMap (defPaths san)).Nodup) :
    ∃ r1 r2 r,
      process_scripts wtf san env.detail scripts [("scripts")] [("scriptsraw")]
        false = .ok r1 ∧
      r1.current.length = 2 * scripts.length ∧
      process_scripts wtf san env.detail snips [("snippets")] [("snippetsraw")]
        true = .ok r2 ∧
      r2.current.length = 2 * snips.length ∧
      main_sync wtf wb san hash env raws edits disk = .ok r ∧
      r.totalReported = 2 * (scripts.length + snips.length) := by
  obtain ⟨r1, hp1, hc1⟩ := process_scripts_char wtf san env.detail
    [("scripts")] [("scriptsraw")] false scripts h1
  obtain ⟨r2, hp2, hc2⟩ := process_scripts_char wtf san env.detail
    [("snippets")] [("snippetsraw")] true snips h3
  have hf1 : scripts.filter (processedB env.detail false) = scripts :=
    List.filter_eq_self.mpr (by rw [List.all_eq_true] at h2; exact h2)
  have hf2 : snips.filter (processedB env.detail true) = snips :=
    List.filter_eq_self.mpr (by rw [List.all_eq_true] at h4; exact h4)
  rw [hf1] at hc1
  rw [hf2] at hc2
  have hnd1 : (scripts.flatMap (defPaths san)).Nodup := h5.of_append_left
  have hcur1 : r1.current = scripts.flatMap (defPaths san) := by
    rw [hc1, listInsertAll_eq_append _ [] (by simpa using hnd1)]
    simp
  have hnd2 : (snips.flatMap (defPaths san)).Nodup := h5.of_append_right
  have hcur2 : r2.current = snips.flatMap (defPaths san) := by
    rw [hc2, listInsertAll_eq_append _ [] (by simpa using hnd2)]
    simp
  have hman : listInsertAll (listInsertAll [] r1.current) r2.current =
      scripts.flatMap (defPaths san) ++ snips.flatMap (defPaths san) := by
    rw [hcur1, hcur2]
    rw [listInsertAll_eq_append _ [] (by simpa using hnd1)]
    simp only [List.nil_append]
    exact listInsertAll_eq_append _ _ h5
  have hmain : main_sync wtf wb san hash env raws edits disk = .ok
      ⟨calls, r1.writes ++ r2.writes,
       listInsertAll (listInsertAll [] r1.current) r2.current,
       delete_obsolete_files disk.scripts
         (listInsertAll (listInsertAll [] r1.current) r2.current),
       delete_obsolete_files disk.scriptsraw
         (listInsertAll (listInsertAll [] r1.current) r2.current),
       delete_obsolete_files disk.snippets
         (listInsertAll (listInsertAll [] r1.current) r2.current),
       delete_obsolete_files disk.snippetsraw
         (listInsertAll (listInsertAll [] r1.current) r2.current),
       (listInsertAll (listInsertAll [] r1.current) r2.current).length,
       r1.shells ++ r2.shells⟩ := by
    unfold main_sync
    simp only [hrec, hu, hp1, hsn, hp2]
  refine ⟨r1, r2, _, hp1, ?_, hp2, ?_, hmain, ?_⟩
  · rw [hcur1, flatMap_defPaths_length]
  · rw [hcur2, flatMap_defPaths_length]
  · show (listInsertAll (listInsertAll [] r1.current) r2.current).length =
      2 * (scripts.length + snips.length)
    rw [hman, List.length_append, flatMap_defPaths_length,
      flatMap_defPaths_length]
    omega

/-- C8 witness: the counting statement on a concrete run with one
script and one snippet: each step counts 2 and the reported total is 4,
not 2. -/
theorem export_count_counts_both_files_check :
    ∃ r1 r2 r,
      process_scripts true id envC8.detail [scrFooDef] [("scripts")]
        [("scriptsraw")] false = .ok r1 ∧
      r1.current.length = 2 * ([scrFooDef] : List Dict).length ∧
      process_scripts true id envC8.detail [snipBarDef] [("snippets")]
        [("snippetsraw")] true = .ok r2 ∧
      r2.current.length = 2 * ([snipBarDef] : List Dict).length ∧
      main_sync true true id id envC8 [] [] emptyDisk = .ok r ∧
      r.totalReported =
        2 * (([scrFooDef] : List Dict).length +
          ([snipBarDef] : List Dict).length) :=
  export_count_counts_both_files true true id id envC8 [] [] emptyDisk []
    [scrFooDef] [snipBarDef] rfl rfl rfl (by decide) (by decide) (by decide)
    (by decide) (by decide)

/-- C9: the write to file flag gates only file writes (and, separately,
the writeback flag gates API pushes), not deletion: in a run with
writing disabled the export performs no write, yet every on disk file
absent from the combined Manifest is still deleted from all four roots,
Manifest members are kept, and a directory with nothing surviving below
it is still removed. -/
theorem prune_unaffected_by_write_flag (wb : Bool) (san hash : String → String)
    (env : SyncEnv) (raws : List RawFile) (edits : List EditFile)
    (disk : DiskRoots) (r : SyncResult) (f d : List String)
    (h : main_sync false wb san hash env raws edits disk = .ok r)
    (h1 : (r.scriptsAfter.files).any (underDir d) = false)
    (h2 : disk.scripts.dirs.any (underDir d) = false) :
    r.exportWrites = [] ∧
    (f ∈ r.scriptsAfter.files ↔ f ∈ disk.scripts.files ∧ f ∈ r.manifest) ∧
    (f ∈ r.scriptsrawAfter.files ↔ f ∈ disk.scriptsraw.files ∧ f ∈ r.manifest) ∧
    (f ∈ r.snippetsAfter.files ↔ f ∈ disk.snippets.files ∧ f ∈ r.manifest) ∧
    (f ∈ r.snippetsrawAfter.files ↔ f ∈ disk.snippetsraw.files ∧ f ∈ r.manifest) ∧
    d ∉ r.scriptsAfter.dirs := by
  obtain ⟨ha, hb, hc, hd2, _, scripts, snips, r1, r2, hu, hsn, hp1, hp2, hw, hm⟩ :=
    main_sync_fields false wb san hash env raws edits disk r h
  have e1 : r1.writes = [] :=
    process_loop_dry_writes san env.detail [("scripts")] [("scriptsraw")] false
      scripts ⟨[], [], []⟩ r1 hp1
  have e2 : r2.writes = [] :=
    process_loop_dry_writes san env.detail [("snippets")] [("snippetsraw")] true
      snips ⟨[], [], []⟩ r2 hp2
  refine ⟨?_, ?_, ?_, ?_, ?_, ?_⟩
  · rw [hw, e1, e2]; rfl
  · rw [ha]; exact pruneMemIff _ _ _
  · rw [hb]; exact pruneMemIff _ _ _
  · rw [hc]; exact pruneMemIff _ _ _
  · rw [hd2]; exact pruneMemIff _ _ _
  · rw [ha] at h1 ⊢
    exact prune_removes_empty_dir disk.scripts r.manifest d h1 h2

/-- C9 witness: the statement evaluated on a dry run over a scripts
root holding one stale file and one empty directory, both removed. -/
theorem prune_unaffected_by_write_flag_check :
    emptyRun.exportWrites = [] ∧
    ((["stale.txt"] : List String) ∈ emptyRun.scriptsAfter.files ↔
      (["stale.txt"] : List String) ∈ diskStale.scripts.files ∧
      (["stale.txt"] : List String) ∈ emptyRun.manifest) ∧
    ((["stale.txt"] : List String) ∈ emptyRun.scriptsrawAfter.files ↔
      (["stale.txt"] : List String) ∈ diskStale.scriptsraw.files ∧
      (["stale.txt"] : List String) ∈ emptyRun.manifest) ∧
    ((["stale.txt"] : List String) ∈ emptyRun.snippetsAfter.files ↔
      (["stale.txt"] : List String) ∈ diskStale.snippets.files ∧
      (["stale.txt"] : List String) ∈ emptyRun.manifest) ∧
    ((["stale.txt"] : List String) ∈ emptyRun.snippetsrawAfter.files ↔
      (["stale.txt"] : List String) ∈ diskStale.snippetsraw.files ∧
      (["stale.txt"] : List String) ∈ emptyRun.manifest) ∧
    (["emptyd"] : List String) ∉ emptyRun.scriptsAfter.dirs :=
  prune_unaffected_by_write_flag true id id env0 [] [] diskStale emptyRun
    [("stale.txt")] [("emptyd")] rfl rfl (by decide)
